import Mathlib

/-!
# Verification of ModelarDB-RS grid reconstruction and compressed data buffer

Shallow embedding of `crates/modelardb_server/src/query/grid_exec.rs` and
`crates/modelardb_server/src/storage/compressed_data_buffer.rs`.

Modelling choices:
* Arrow `RecordBatch`es of the fixed three-column data-point schema
  (`univariate_id : UInt64`, `timestamp : Timestamp`, `value : Float32`) are
  embedded columnar, as three Lean lists, mirroring the per-column operations
  (`append_slice`, `slice`, `filter_record_batch`) performed by the source.
* `u64` univariate ids are embedded as `Nat` and `i64` timestamps as `Int`;
  the code only compares them, and never performs wrapping arithmetic on them.
* `f32` payloads (values, min/max, error) are embedded as opaque `Int` payloads:
  the code under verification never performs arithmetic on them, it only moves
  them between batches.
* The external reconstruction kernel `modelardb_compression::grid` is a
  parameter `g : Segment → List DataPoint`, giving the rows it appends to the
  three output builders for one segment row.
* The upstream `SendableRecordBatchStream` is embedded as a list of poll
  outcomes (`batch`, `error`, `pending`) consumed one per upstream poll; an
  exhausted list is `Poll::Ready(None)`.
* Metrics (`BaselineMetrics`) and the fixed schema have no semantic effect on
  the batch contents and are omitted from the state.
-/

namespace ModelarDB

/-- A reconstructed data point row of the query schema
(`univariate_id`, `timestamp`, `value`). -/
structure DataPoint where
  univariate_id : Nat
  timestamp : Int
  value : Int
deriving DecidableEq, Repr

/-- A compressed segment row with exactly the ten fields of the compressed
schema, in the source's column order. Opaque byte columns are embedded as
`List Nat`, `f32` fields as opaque `Int` payloads. -/
structure Segment where
  univariate_id : Nat
  model_type_id : Nat
  start_time : Int
  end_time : Int
  timestamps : List Nat
  min_value : Int
  max_value : Int
  values : List Nat
  residuals : List Nat
  error : Int
deriving DecidableEq, Repr

/-- A `RecordBatch` of the data-point schema, embedded as its three columns. -/
structure PointBatch where
  univariate_ids : List Nat
  timestamps : List Int
  values : List Int
deriving DecidableEq, Repr

/-- `RecordBatch::new_empty` for the data-point schema. -/
def PointBatch.new_empty : PointBatch := ⟨[], [], []⟩

/-- `RecordBatch::num_rows`; Arrow guarantees all columns have this length
(`wellFormed` below). -/
def PointBatch.num_rows (b : PointBatch) : Nat := b.univariate_ids.length

/-- All three columns of the batch have the same length. `RecordBatch::try_new`
establishes this and every batch the code builds maintains it. -/
def PointBatch.wellFormed (b : PointBatch) : Prop :=
  b.timestamps.length = b.univariate_ids.length ∧
  b.values.length = b.univariate_ids.length

instance (b : PointBatch) : Decidable b.wellFormed := by
  unfold PointBatch.wellFormed; infer_instance

/-- `RecordBatch::slice(offset, length)`: the same zero-copy slice taken of
every column. -/
def PointBatch.slice (b : PointBatch) (offset length : Nat) : PointBatch :=
  ⟨(b.univariate_ids.drop offset).take length,
   (b.timestamps.drop offset).take length,
   (b.values.drop offset).take length⟩

/-- Rows of a columnar batch, zipping the three columns positionally. -/
def zipRows : List Nat → List Int → List Int → List DataPoint
  | u :: us, t :: ts, v :: vs => ⟨u, t, v⟩ :: zipRows us ts vs
  | _, _, _ => []

/-- The row view of a data-point batch. -/
def PointBatch.rows (b : PointBatch) : List DataPoint :=
  zipRows b.univariate_ids b.timestamps b.values

/-- One column of `arrow::compute::filter_record_batch`: keep the entries of
the column whose position in the boolean mask holds `true`. -/
def filterColumn : List Bool → List α → List α
  | m :: ms, x :: xs => if m then x :: filterColumn ms xs else filterColumn ms xs
  | _, _ => []

/-- `arrow::compute::filter_record_batch`: filter all three columns by the
boolean array computed from the predicate. -/
def filter_record_batch (b : PointBatch) (mask : List Bool) : PointBatch :=
  ⟨filterColumn mask b.univariate_ids,
   filterColumn mask b.timestamps,
   filterColumn mask b.values⟩

/-- A pushed-down physical predicate over the data-point schema. The source
evaluates `predicate.evaluate(&batch)` and coerces the result to a boolean
array; its contract (spec §4.4, §6) is a boolean per row. -/
def evaluatePredicate (p : DataPoint → Bool) (b : PointBatch) : List Bool :=
  b.rows.map p

/-- The state of `GridStream` (grid_exec.rs lines 199-214). The upstream
`input` stream is passed explicitly to `poll_next`; `schema` and
`baseline_metrics` carry no batch content and are omitted. -/
structure GridStream where
  maybe_predicate : Option (DataPoint → Bool)
  batch_size : Nat
  current_batch : PointBatch
  current_batch_offset : Nat

/-- `GridStream::new` (grid_exec.rs lines 217-243): the effective batch size is
`usize::min(limit, batch_size)` when a limit is present, and the current batch
starts out as the empty batch with offset `0`. -/
def GridStream.new (maybe_predicate : Option (DataPoint → Bool)) (limit : Option Nat)
    (batch_size : Nat) : GridStream :=
  let batch_size :=
    match limit with
    | some limit => Nat.min limit batch_size
    | none => batch_size
  { maybe_predicate := maybe_predicate
    batch_size := batch_size
    current_batch := PointBatch.new_empty
    current_batch_offset := 0 }

/-- The builder loop of `grid_and_append_to_leftovers_in_current_batch`
(grid_exec.rs lines 291-306): for each segment row, the kernel `g` appends its
reconstructed rows to the three builders. -/
def gridSegmentsLoop (g : Segment → List DataPoint) :
    List Segment → List Nat × List Int × List Int → List Nat × List Int × List Int
  | [], builders => builders
  | seg :: rest, (us, ts, vs) =>
      let pts := g seg
      gridSegmentsLoop g rest
        (us ++ pts.map DataPoint.univariate_id,
         ts ++ pts.map DataPoint.timestamp,
         vs ++ pts.map DataPoint.value)

/-- `GridStream::grid_and_append_to_leftovers_in_current_batch` (grid_exec.rs
lines 247-330): copy the leftover range `[current_batch_offset, num_rows)` of
each column into the builders, reconstruct the data points of each segment row
of `batch`, finish the builders into a batch, filter it by the predicate when
one is present, and reset the offset to `0`. Builder capacity hints have no
semantic effect and are omitted. -/
def GridStream.grid_and_append_to_leftovers_in_current_batch (g : Segment → List DataPoint)
    (s : GridStream) (batch : List Segment) : GridStream :=
  let leftoverUids := s.current_batch.univariate_ids.drop s.current_batch_offset
  let leftoverTimestamps := s.current_batch.timestamps.drop s.current_batch_offset
  let leftoverValues := s.current_batch.values.drop s.current_batch_offset
  let (us, ts, vs) := gridSegmentsLoop g batch (leftoverUids, leftoverTimestamps, leftoverValues)
  let current_batch : PointBatch := ⟨us, ts, vs⟩
  let current_batch :=
    match s.maybe_predicate with
    | some predicate => filter_record_batch current_batch (evaluatePredicate predicate current_batch)
    | none => current_batch
  { s with current_batch := current_batch, current_batch_offset := 0 }

/-- One upstream poll outcome of the input segment stream: a segment batch, an
error, or `Poll::Pending`. An exhausted list models `Poll::Ready(None)`. -/
inductive UpstreamItem where
  | batch (segments : List Segment)
  | error
  | pending
deriving DecidableEq, Repr

/-- The result of one `GridStream::poll_next`. -/
inductive PollRes where
  | out (batch : PointBatch)
  | errorOut
  | pending
  | endOfStream
deriving DecidableEq, Repr

/-- The delivery step at the bottom of `poll_next` (grid_exec.rs lines
361-366): slice `min(batch_size, remaining)` rows at the offset and advance
the offset by the emitted row count. -/
def GridStream.deliver (s : GridStream) : PointBatch × GridStream :=
  let remaining_data_points := s.current_batch.num_rows - s.current_batch_offset
  let length := Nat.min s.batch_size remaining_data_points
  let batch := s.current_batch.slice s.current_batch_offset length
  (batch, { s with current_batch_offset := s.current_batch_offset + batch.num_rows })

/-- `GridStream::poll_next` (grid_exec.rs lines 341-367). When fewer than
`batch_size` data points remain, one upstream poll is attempted: a new batch
triggers the refill routine, `Ready(None)` is ignored while leftovers remain,
and any other upstream result is propagated. It then delivers a slice of the
current batch. Returns the poll result, the updated state, and the rest of
the upstream. -/
def GridStream.poll_next (g : Segment → List DataPoint) (s : GridStream)
    (input : List UpstreamItem) : PollRes × GridStream × List UpstreamItem :=
  if s.current_batch.num_rows - s.current_batch_offset < s.batch_size then
    match input with
    | UpstreamItem.batch b :: rest =>
        let s := s.grid_and_append_to_leftovers_in_current_batch g b
        let (batch, s) := s.deliver
        (PollRes.out batch, s, rest)
    | UpstreamItem.error :: rest => (PollRes.errorOut, s, rest)
    | UpstreamItem.pending :: rest => (PollRes.pending, s, rest)
    | [] =>
        if s.current_batch_offset < s.current_batch.num_rows then
          let (batch, s) := s.deliver
          (PollRes.out batch, s, [])
        else
          (PollRes.endOfStream, s, [])
  else
    let (batch, s) := s.deliver
    (PollRes.out batch, s, input)

/-- Drive a `GridStream` through at most `fuel` polls, collecting the emitted
batches and whether the stream returned `Poll::Ready(None)` (end of stream)
within those polls. After a propagated pending or error result the driver
simply polls again, as the host executor may. -/
def GridStream.runPolls (g : Segment → List DataPoint) :
    Nat → GridStream → List UpstreamItem → List PointBatch × Bool
  | 0, _, _ => ([], false)
  | fuel + 1, s, input =>
      match s.poll_next g input with
      | (PollRes.out batch, s', input') =>
          let r := GridStream.runPolls g fuel s' input'
          (batch :: r.1, r.2)
      | (PollRes.endOfStream, _, _) => ([], true)
      | (_, s', input') => GridStream.runPolls g fuel s' input'

/-- The segment rows carried by one upstream poll outcome. -/
def UpstreamItem.segments : UpstreamItem → List Segment
  | UpstreamItem.batch b => b
  | _ => []

/-- All segment rows yielded by the upstream, in order. -/
def allSegments (input : List UpstreamItem) : List Segment :=
  input.flatMap UpstreamItem.segments

/-- All data points the kernel will reconstruct from the remaining upstream. -/
def futurePoints (g : Segment → List DataPoint) (input : List UpstreamItem) : List DataPoint :=
  (allSegments input).flatMap g

/-- The filter the stream applies to a freshly reconstructed candidate batch,
at the row level: the identity when no predicate is present. -/
def optFilter : Option (DataPoint → Bool) → List DataPoint → List DataPoint
  | none, l => l
  | some p, l => l.filter p

/-- The point order (`univariate_id` ascending, `timestamp` ascending),
non-strict: `QUERY_ORDER_DATA_POINT`. -/
def pointLe (p q : DataPoint) : Prop :=
  p.univariate_id < q.univariate_id ∨
    (p.univariate_id = q.univariate_id ∧ p.timestamp ≤ q.timestamp)

instance (p q : DataPoint) : Decidable (pointLe p q) := by
  unfold pointLe; infer_instance

/-- The segment order (`univariate_id` ascending, `start_time` ascending),
non-strict: `QUERY_ORDER_SEGMENT`. -/
def segmentLe (a b : Segment) : Prop :=
  a.univariate_id < b.univariate_id ∨
    (a.univariate_id = b.univariate_id ∧ a.start_time ≤ b.start_time)

instance (a b : Segment) : Decidable (segmentLe a b) := by
  unfold segmentLe; infer_instance

/-- Two segments of the same univariate time series, in stream order, cover
non-overlapping time ranges: the earlier segment ends no later than the later
one starts. -/
def segmentsSeparated (a b : Segment) : Prop :=
  a.univariate_id = b.univariate_id → a.end_time ≤ b.start_time

instance (a b : Segment) : Decidable (segmentsSeparated a b) := by
  unfold segmentsSeparated; infer_instance

/-- The rows still to be delivered from the current batch. -/
def GridStream.pendingRows (s : GridStream) : List DataPoint :=
  s.current_batch.rows.drop s.current_batch_offset

/-- A sample reconstruction kernel for concrete runs: it reads the opaque
timestamp bytes as literal timestamps and reconstructs one point per entry. -/
def sampleKernel : Segment → List DataPoint := fun seg =>
  seg.timestamps.map fun t => ⟨seg.univariate_id, (t : Int), 0⟩

/-- A sample segment whose time range spans its literal timestamps. -/
def sampleSegment (uid : Nat) (ts : List Nat) : Segment :=
  ⟨uid, 0, ((ts.headD 0 : Nat) : Int), ((ts.getLastD 0 : Nat) : Int), ts, 0, 0, [], [], 0⟩

/-- A sample upstream of two segment batches in segment order. -/
def sampleInput : List UpstreamItem :=
  [UpstreamItem.batch [sampleSegment 1 [10, 11, 12], sampleSegment 1 [13]],
   UpstreamItem.batch [sampleSegment 2 [10, 11]]]

/-- A sample mid-run stream state: one delivered row, one pending row. -/
def sampleState : GridStream :=
  { maybe_predicate := some fun p => decide (p.timestamp ≤ 11)
    batch_size := 2
    current_batch := ⟨[1, 1], [10, 11], [0, 0]⟩
    current_batch_offset := 1 }


/-- `GridExec` (grid_exec.rs lines 54-65), generic over the type `P` of child
execution plans. The fixed query schema and the metrics set carry no plan
content and are omitted. -/
structure GridExec (P : Type) where
  maybe_predicate : Option (DataPoint → Bool)
  limit : Option Nat
  input : P

/-- `GridExec::new` (grid_exec.rs lines 68-82). -/
def GridExec.new (maybe_predicate : Option (DataPoint → Bool)) (limit : Option Nat)
    (input : P) : GridExec P :=
  { maybe_predicate := maybe_predicate, limit := limit, input := input }

/-- `GridExec::children` (grid_exec.rs lines 110-112). -/
def GridExec.children (g : GridExec P) : List P := [g.input]

/-- `ExecutionPlan::with_new_children` for `GridExec` (grid_exec.rs lines
117-132): succeed with a copy reading from the single given child, or return
`DataFusionError::Plan` (modelled as the error message) when the child count
is not exactly one. -/
def GridExec.with_new_children (g : GridExec P) (children : List P) :
    Except String (GridExec P) :=
  if h : children.length = 1 then
    Except.ok (GridExec.new g.maybe_predicate g.limit (children.get ⟨0, by omega⟩))
  else
    Except.error "Exactly one child must be provided"

/-- `parquet::format::SortingColumn` with its thrift field order; the
constructor arguments of `SortingColumn::new` are
`(column_idx, descending, nulls_first)`. -/
structure SortingColumn where
  column_idx : Nat
  descending : Bool
  nulls_first : Bool
deriving DecidableEq, Repr

/-- `SortingColumn::new(column_idx, descending, nulls_first)`. -/
def SortingColumn.new (column_idx : Nat) (descending nulls_first : Bool) : SortingColumn :=
  ⟨column_idx, descending, nulls_first⟩

/-- `CompressedDataBuffer` (compressed_data_buffer.rs lines 77-82). A
compressed-segment `RecordBatch` is embedded as its list of segment rows. -/
structure CompressedDataBuffer where
  compressed_segments : List (List Segment)
  size_in_bytes : Nat
deriving DecidableEq, Repr

/-- `CompressedDataBuffer::new` (compressed_data_buffer.rs lines 85-90). -/
def CompressedDataBuffer.new : CompressedDataBuffer :=
  { compressed_segments := [], size_in_bytes := 0 }

/-- `CompressedDataBuffer::append_compressed_segments` (compressed_data_buffer.rs
lines 94-101). The Arrow memory accounting
`size_of_compressed_segments` sums external allocator sizes and is a parameter
`sizeOf`; per the spec (§4.1) it is a policy input only. Returns the size of
the appended batch and the updated buffer. -/
def CompressedDataBuffer.append_compressed_segments (sizeOf : List Segment → Nat)
    (buf : CompressedDataBuffer) (compressed_segments : List Segment) :
    Nat × CompressedDataBuffer :=
  let segment_size := sizeOf compressed_segments
  (segment_size,
   { compressed_segments := buf.compressed_segments ++ [compressed_segments]
     size_in_bytes := buf.size_in_bytes + segment_size })

/-- What `save_to_apache_parquet` hands to the Apache Parquet writer: the
concatenated batch and the file-level sort metadata. -/
structure ParquetWrite where
  batch : List Segment
  sorting_columns : Option (List SortingColumn)
deriving DecidableEq, Repr

/-- The outcome of `save_to_apache_parquet`: a `debug_assert!` panic, an
`IOError` (modelled as its message), or success carrying the performed write
and the buffer state after the call (`&mut self`). The returned
`CompressedFile` descriptor is produced by the out-of-scope
`CompressedFile::from_compressed_data` collaborator from the write and adds no
buffer-visible information. -/
inductive SaveResult where
  | panicked (msg : String)
  | ioError (msg : String)
  | ok (write : ParquetWrite) (buffer : CompressedDataBuffer)
deriving DecidableEq, Repr

/-- Modelled from the spec: the fallible environment steps of a flush that are
performed by collaborators outside `src/` — directory creation
(`fs::create_dir_all`), the Apache Parquet write
(`StorageEngine::write_batch_to_apache_parquet_file`, spec §4.1: "writes the
batch to ... columnar file annotated with sort-order metadata"), and reading
the written file's metadata (`file_path.metadata()`). Spec §7 lists exactly
"directory creation, file write, or metadata read failures" as the flush I/O
error sources; each flag tells whether that step succeeds. -/
structure IoEnv where
  create_dir_all_ok : Bool
  write_ok : Bool
  metadata_ok : Bool
deriving DecidableEq, Repr

/-- `CompressedDataBuffer::save_to_apache_parquet` (compressed_data_buffer.rs
lines 105-152). `debugAssertions` tells whether `debug_assert!` is active
(debug build). `arrow::compute::concat_batches` concatenates the accumulated
batches and, per its documented behaviour, yields the empty batch for an empty
list, so the `unwrap` never panics for the fixed schema. The UUID file name is
opaque and not modelled. Note the buffer fields are not modified. -/
def CompressedDataBuffer.save_to_apache_parquet (debugAssertions : Bool) (io : IoEnv)
    (buf : CompressedDataBuffer) : SaveResult :=
  if debugAssertions && buf.compressed_segments.isEmpty then
    SaveResult.panicked "Cannot save CompressedDataBuffer with no data."
  else
    let batch := buf.compressed_segments.flatten
    if !io.create_dir_all_ok then
      SaveResult.ioError "create_dir_all failed"
    else
      let sorting_columns :=
        some [SortingColumn.new 0 false false, SortingColumn.new 2 false false]
      if !io.write_ok then
        SaveResult.ioError "write_batch_to_apache_parquet_file failed"
      else if !io.metadata_ok then
        SaveResult.ioError "file metadata read failed"
      else
        SaveResult.ok { batch := batch, sorting_columns := sorting_columns } buf

/-- An I/O environment in which every external step succeeds. -/
def goodIo : IoEnv := ⟨true, true, true⟩

/-- A sample buffer holding one appended compressed-segment batch. -/
def sampleBuffer : CompressedDataBuffer :=
  { compressed_segments := [[sampleSegment 1 [10, 11]]], size_in_bytes := 64 }

/-- Every row of the current batch satisfies the predicate, when one is
present. This holds for every batch the stream installs, because each is the
output of `filter_record_batch` for that predicate. -/
def GridStream.predHolds (s : GridStream) : Prop :=
  ∀ q, s.maybe_predicate = some q → ∀ p ∈ s.current_batch.rows, q p = true

/-- Invariant tying the emitted rows, the stream state and the remaining
upstream together: the batch is well formed with the offset in bounds, the
emitted rows followed by the pending rows are sorted, they are all below every
future reconstructed point, and the future reconstructed points themselves are
sorted. -/
def RunInv (g : Segment → List DataPoint) (emitted : List DataPoint) (s : GridStream)
    (input : List UpstreamItem) : Prop :=
  s.current_batch.wellFormed ∧
  s.current_batch_offset ≤ s.current_batch.num_rows ∧
  List.Pairwise pointLe (emitted ++ s.pendingRows) ∧
  (∀ p ∈ emitted ++ s.pendingRows, ∀ q ∈ futurePoints g input, pointLe p q) ∧
  List.Pairwise pointLe (futurePoints g input)

/-! ## Lemmas about the columnar row view -/

@[simp]
theorem zipRows_nil_left (ts : List Int) (vs : List Int) : zipRows [] ts vs = [] := by
  cases ts <;> cases vs <;> rfl

@[simp]
theorem zipRows_nil_mid (us : List Nat) (vs : List Int) : zipRows us [] vs = [] := by
  cases us <;> cases vs <;> rfl

@[simp]
theorem zipRows_nil_right (us : List Nat) (ts : List Int) : zipRows us ts [] = [] := by
  cases us <;> cases ts <;> rfl

@[simp]
theorem zipRows_cons (u : Nat) (us : List Nat) (t : Int) (ts : List Int) (v : Int)
    (vs : List Int) : zipRows (u :: us) (t :: ts) (v :: vs) = ⟨u, t, v⟩ :: zipRows us ts vs :=
  rfl

theorem zipRows_length_of_eq (us : List Nat) (ts : List Int) (vs : List Int)
    (h1 : ts.length = us.length) (h2 : vs.length = us.length) :
    (zipRows us ts vs).length = us.length := by
  induction us generalizing ts vs with
  | nil => simp
  | cons u us ih =>
      cases ts with
      | nil => simp at h1
      | cons t ts =>
          cases vs with
          | nil => simp at h2
          | cons v vs =>
              simp only [zipRows_cons, List.length_cons] at *
              exact congrArg Nat.succ (ih ts vs (by omega) (by omega))

theorem zipRows_append (us1 us2 : List Nat) (ts1 ts2 : List Int) (vs1 vs2 : List Int)
    (h1 : ts1.length = us1.length) (h2 : vs1.length = us1.length) :
    zipRows (us1 ++ us2) (ts1 ++ ts2) (vs1 ++ vs2) =
      zipRows us1 ts1 vs1 ++ zipRows us2 ts2 vs2 := by
  induction us1 generalizing ts1 vs1 with
  | nil =>
      cases ts1 with
      | nil =>
          cases vs1 with
          | nil => simp
          | cons v vs => simp at h2
      | cons t ts => simp at h1
  | cons u us ih =>
      cases ts1 with
      | nil => simp at h1
      | cons t ts =>
          cases vs1 with
          | nil => simp at h2
          | cons v vs =>
              simp only [List.cons_append, zipRows_cons, List.length_cons] at *
              exact congrArg _ (ih ts vs (by omega) (by omega))

theorem zipRows_drop (n : Nat) (us : List Nat) (ts : List Int) (vs : List Int) :
    zipRows (us.drop n) (ts.drop n) (vs.drop n) = (zipRows us ts vs).drop n := by
  induction n generalizing us ts vs with
  | zero => simp
  | succ n ih =>
      cases us with
      | nil => simp
      | cons u us =>
          cases ts with
          | nil => simp
          | cons t ts =>
              cases vs with
              | nil => simp
              | cons v vs => simpa using ih us ts vs

theorem zipRows_take (n : Nat) (us : List Nat) (ts : List Int) (vs : List Int) :
    zipRows (us.take n) (ts.take n) (vs.take n) = (zipRows us ts vs).take n := by
  induction n generalizing us ts vs with
  | zero => simp
  | succ n ih =>
      cases us with
      | nil => simp
      | cons u us =>
          cases ts with
          | nil => simp
          | cons t ts =>
              cases vs with
              | nil => simp
              | cons v vs => simpa using ih us ts vs

theorem zipRows_proj (l : List DataPoint) :
    zipRows (l.map DataPoint.univariate_id) (l.map DataPoint.timestamp)
      (l.map DataPoint.value) = l := by
  induction l with
  | nil => simp
  | cons p l ih => simpa using ih

theorem filterColumn_length_congr (m : List Bool) (xs : List α) (ys : List β)
    (h : xs.length = ys.length) :
    (filterColumn m xs).length = (filterColumn m ys).length := by
  induction m generalizing xs ys with
  | nil => simp [filterColumn]
  | cons b bs ih =>
      cases xs with
      | nil =>
          cases ys with
          | nil => rfl
          | cons y ys => simp at h
      | cons x xs =>
          cases ys with
          | nil => simp at h
          | cons y ys =>
              simp only [List.length_cons] at h
              cases b with
              | true => simpa [filterColumn] using ih xs ys (by omega)
              | false => simpa [filterColumn] using ih xs ys (by omega)

theorem filterColumn_zipRows (m : List Bool) (us : List Nat) (ts : List Int)
    (vs : List Int) (h1 : ts.length = us.length) (h2 : vs.length = us.length) :
    zipRows (filterColumn m us) (filterColumn m ts) (filterColumn m vs) =
      filterColumn m (zipRows us ts vs) := by
  induction m generalizing us ts vs with
  | nil => simp [filterColumn]
  | cons b bs ih =>
      cases us with
      | nil =>
          cases ts with
          | nil =>
              cases vs with
              | nil => rfl
              | cons v vs => simp at h2
          | cons t ts => simp at h1
      | cons u us =>
          cases ts with
          | nil => simp at h1
          | cons t ts =>
              cases vs with
              | nil => simp at h2
              | cons v vs =>
                  simp only [List.length_cons] at h1 h2
                  cases b with
                  | true =>
                      simp only [filterColumn, if_pos, zipRows_cons]
                      simpa [filterColumn] using ih us ts vs (by omega) (by omega)
                  | false =>
                      simpa [filterColumn] using ih us ts vs (by omega) (by omega)

theorem filterColumn_map_pred (p : DataPoint → Bool) (l : List DataPoint) :
    filterColumn (l.map p) l = l.filter p := by
  induction l with
  | nil => rfl
  | cons x xs ih =>
      cases h : p x <;> simp [filterColumn, List.filter_cons, h, ih]

/-! ## Lemmas about batches and the refill and delivery steps -/

theorem PointBatch.wellFormed_new_empty : PointBatch.new_empty.wellFormed := by
  constructor <;> rfl

theorem PointBatch.rows_new_empty : PointBatch.new_empty.rows = [] := rfl

theorem PointBatch.rows_slice (b : PointBatch) (o l : Nat) :
    (b.slice o l).rows = (b.rows.drop o).take l := by
  unfold PointBatch.slice PointBatch.rows
  rw [zipRows_take, zipRows_drop]

theorem PointBatch.num_rows_slice_le (b : PointBatch) (o l : Nat) :
    (b.slice o l).num_rows ≤ l := by
  simp only [PointBatch.slice, PointBatch.num_rows, List.length_take]
  omega

theorem PointBatch.num_rows_slice (b : PointBatch) (o l : Nat) (h : l ≤ b.num_rows - o) :
    (b.slice o l).num_rows = l := by
  simp only [PointBatch.slice, PointBatch.num_rows, List.length_take, List.length_drop] at *
  omega

theorem PointBatch.rows_length (b : PointBatch) (h : b.wellFormed) :
    b.rows.length = b.num_rows :=
  zipRows_length_of_eq _ _ _ h.1 h.2

theorem PointBatch.wellFormed_filter_record_batch (b : PointBatch) (m : List Bool)
    (h : b.wellFormed) : (filter_record_batch b m).wellFormed :=
  ⟨filterColumn_length_congr m _ _ h.1, filterColumn_length_congr m _ _ h.2⟩

theorem PointBatch.rows_filter_predicate (b : PointBatch) (p : DataPoint → Bool)
    (h : b.wellFormed) :
    (filter_record_batch b (evaluatePredicate p b)).rows = b.rows.filter p := by
  unfold filter_record_batch evaluatePredicate
  show zipRows _ _ _ = _
  rw [filterColumn_zipRows _ _ _ _ h.1 h.2]
  exact filterColumn_map_pred p b.rows

theorem gridSegmentsLoop_eq (g : Segment → List DataPoint) (segs : List Segment)
    (us : List Nat) (ts : List Int) (vs : List Int) :
    gridSegmentsLoop g segs (us, ts, vs) =
      (us ++ (segs.flatMap g).map DataPoint.univariate_id,
       ts ++ (segs.flatMap g).map DataPoint.timestamp,
       vs ++ (segs.flatMap g).map DataPoint.value) := by
  induction segs generalizing us ts vs with
  | nil => simp [gridSegmentsLoop]
  | cons seg rest ih =>
      simp [gridSegmentsLoop, ih, List.append_assoc]

/-- The refill routine builds the candidate batch whose rows are the leftover
rows followed by the kernel output for each segment row, then filters it. -/
theorem gridAndAppend_spec (g : Segment → List DataPoint) (s : GridStream)
    (b : List Segment) (h : s.current_batch.wellFormed) :
    (s.grid_and_append_to_leftovers_in_current_batch g b).current_batch.wellFormed ∧
    (s.grid_and_append_to_leftovers_in_current_batch g b).current_batch.rows =
      optFilter s.maybe_predicate (s.pendingRows ++ b.flatMap g) ∧
    (s.grid_and_append_to_leftovers_in_current_batch g b).current_batch_offset = 0 ∧
    (s.grid_and_append_to_leftovers_in_current_batch g b).batch_size = s.batch_size ∧
    (s.grid_and_append_to_leftovers_in_current_batch g b).maybe_predicate = s.maybe_predicate := by
  obtain ⟨h1, h2⟩ := h
  have hcand :
      (⟨s.current_batch.univariate_ids.drop s.current_batch_offset ++
          (b.flatMap g).map DataPoint.univariate_id,
        s.current_batch.timestamps.drop s.current_batch_offset ++
          (b.flatMap g).map DataPoint.timestamp,
        s.current_batch.values.drop s.current_batch_offset ++
          (b.flatMap g).map DataPoint.value⟩ : PointBatch).rows =
        s.pendingRows ++ b.flatMap g := by
    show zipRows _ _ _ = _
    rw [zipRows_append _ _ _ _ _ _ (by simp [h1]) (by simp [h2]), zipRows_proj]
    unfold GridStream.pendingRows PointBatch.rows
    rw [zipRows_drop]
  have hcandwf :
      (⟨s.current_batch.univariate_ids.drop s.current_batch_offset ++
          (b.flatMap g).map DataPoint.univariate_id,
        s.current_batch.timestamps.drop s.current_batch_offset ++
          (b.flatMap g).map DataPoint.timestamp,
        s.current_batch.values.drop s.current_batch_offset ++
          (b.flatMap g).map DataPoint.value⟩ : PointBatch).wellFormed := by
    constructor <;> simp [h1, h2]
  cases hp : s.maybe_predicate with
  | none =>
      simp only [GridStream.grid_and_append_to_leftovers_in_current_batch, gridSegmentsLoop_eq, hp]
      refine ⟨hcandwf, ?_, by trivial, by trivial, by trivial⟩
      simpa [optFilter] using hcand
  | some p =>
      simp only [GridStream.grid_and_append_to_leftovers_in_current_batch, gridSegmentsLoop_eq, hp]
      refine ⟨PointBatch.wellFormed_filter_record_batch _ _ hcandwf, ?_, by trivial, by trivial,
        by trivial⟩
      rw [PointBatch.rows_filter_predicate _ _ hcandwf, hcand]
      simp [optFilter]

/-- The delivery step: the emitted rows followed by the remaining pending rows
are exactly the pending rows before delivery; the batch itself, the batch size
and the predicate are unchanged; the offset stays in bounds; and the emitted
batch has at most `batch_size` rows. -/
theorem deliver_spec (s : GridStream) :
    s.deliver.1.rows ++ s.deliver.2.pendingRows = s.pendingRows ∧
    s.deliver.2.current_batch = s.current_batch ∧
    s.deliver.2.batch_size = s.batch_size ∧
    s.deliver.2.maybe_predicate = s.maybe_predicate ∧
    s.deliver.1.num_rows ≤ s.batch_size ∧
    (s.current_batch_offset ≤ s.current_batch.num_rows →
      s.deliver.2.current_batch_offset ≤ s.deliver.2.current_batch.num_rows) := by
  unfold GridStream.deliver
  have hlen : (s.current_batch.slice s.current_batch_offset
      (Nat.min s.batch_size (s.current_batch.num_rows - s.current_batch_offset))).num_rows =
      Nat.min s.batch_size (s.current_batch.num_rows - s.current_batch_offset) :=
    PointBatch.num_rows_slice _ _ _ (Nat.min_le_right _ _)
  refine ⟨?_, rfl, rfl, rfl, ?_, ?_⟩
  · show (s.current_batch.slice _ _).rows ++
      s.current_batch.rows.drop (s.current_batch_offset + _) = s.current_batch.rows.drop _
    rw [PointBatch.rows_slice, hlen, ← List.drop_drop, List.take_append_drop]
  · show (s.current_batch.slice _ _).num_rows ≤ s.batch_size
    calc (s.current_batch.slice _ _).num_rows
        ≤ Nat.min s.batch_size (s.current_batch.num_rows - s.current_batch_offset) :=
          PointBatch.num_rows_slice_le _ _ _
      _ ≤ s.batch_size := Nat.min_le_left _ _
  · intro hoff
    have hmin := Nat.min_le_right s.batch_size
      (s.current_batch.num_rows - s.current_batch_offset)
    show s.current_batch_offset +
        (s.current_batch.slice s.current_batch_offset
          (Nat.min s.batch_size
            (s.current_batch.num_rows - s.current_batch_offset))).num_rows ≤
      s.current_batch.num_rows
    rw [hlen]
    calc s.current_batch_offset +
          Nat.min s.batch_size (s.current_batch.num_rows - s.current_batch_offset)
        ≤ s.current_batch_offset +
            (s.current_batch.num_rows - s.current_batch_offset) :=
          Nat.add_le_add_left hmin _
      _ = s.current_batch.num_rows := Nat.add_sub_cancel' hoff

/-! ## The poll protocol, case by case -/

/-- Exhaustive description of one `poll_next` call: either fewer than
`batch_size` data points remain and one upstream poll outcome is consumed
(refill-and-deliver, propagated error, propagated pending, deliver leftovers
on `Ready(None)`, or end of stream), or enough data points remain and a slice
is delivered without touching the upstream. -/
theorem poll_next_characterization (g : Segment → List DataPoint) (s : GridStream)
    (input : List UpstreamItem) :
    (s.current_batch.num_rows - s.current_batch_offset < s.batch_size ∧
      ((∃ b rest, input = UpstreamItem.batch b :: rest ∧
          s.poll_next g input =
            (PollRes.out (s.grid_and_append_to_leftovers_in_current_batch g b).deliver.1,
             (s.grid_and_append_to_leftovers_in_current_batch g b).deliver.2, rest)) ∨
       (∃ rest, input = UpstreamItem.error :: rest ∧
          s.poll_next g input = (PollRes.errorOut, s, rest)) ∨
       (∃ rest, input = UpstreamItem.pending :: rest ∧
          s.poll_next g input = (PollRes.pending, s, rest)) ∨
       (input = [] ∧ s.current_batch_offset < s.current_batch.num_rows ∧
          s.poll_next g input = (PollRes.out s.deliver.1, s.deliver.2, [])) ∨
       (input = [] ∧ ¬ s.current_batch_offset < s.current_batch.num_rows ∧
          s.poll_next g input = (PollRes.endOfStream, s, [])))) ∨
    (¬ s.current_batch.num_rows - s.current_batch_offset < s.batch_size ∧
      s.poll_next g input = (PollRes.out s.deliver.1, s.deliver.2, input)) := by
  by_cases hlt : s.current_batch.num_rows - s.current_batch_offset < s.batch_size
  · left
    refine ⟨hlt, ?_⟩
    cases input with
    | nil =>
        by_cases hoff : s.current_batch_offset < s.current_batch.num_rows
        · refine Or.inr (Or.inr (Or.inr (Or.inl ⟨rfl, hoff, ?_⟩)))
          unfold GridStream.poll_next
          rw [if_pos hlt, if_pos hoff]
        · refine Or.inr (Or.inr (Or.inr (Or.inr ⟨rfl, hoff, ?_⟩)))
          unfold GridStream.poll_next
          rw [if_pos hlt, if_neg hoff]
    | cons item rest =>
        cases item with
        | batch b =>
            refine Or.inl ⟨b, rest, rfl, ?_⟩
            unfold GridStream.poll_next
            rw [if_pos hlt]
        | error =>
            refine Or.inr (Or.inl ⟨rest, rfl, ?_⟩)
            unfold GridStream.poll_next
            rw [if_pos hlt]
        | pending =>
            refine Or.inr (Or.inr (Or.inl ⟨rest, rfl, ?_⟩))
            unfold GridStream.poll_next
            rw [if_pos hlt]
  · right
    refine ⟨hlt, ?_⟩
    unfold GridStream.poll_next
    rw [if_neg hlt]

/-! ## Helpers about the optional filter and the future upstream points -/

theorem optFilter_nil (p : Option (DataPoint → Bool)) : optFilter p [] = [] := by
  cases p <;> rfl

theorem optFilter_append (p : Option (DataPoint → Bool)) (a b : List DataPoint) :
    optFilter p (a ++ b) = optFilter p a ++ optFilter p b := by
  cases p <;> simp [optFilter]

theorem optFilter_sublist (p : Option (DataPoint → Bool)) (l : List DataPoint) :
    (optFilter p l).Sublist l := by
  cases p with
  | none => exact List.Sublist.refl l
  | some q => exact List.filter_sublist l

theorem futurePoints_nil (g : Segment → List DataPoint) : futurePoints g [] = [] := rfl

theorem futurePoints_cons_batch (g : Segment → List DataPoint) (b : List Segment)
    (rest : List UpstreamItem) :
    futurePoints g (UpstreamItem.batch b :: rest) = b.flatMap g ++ futurePoints g rest := by
  simp [futurePoints, allSegments, UpstreamItem.segments]

theorem futurePoints_cons_error (g : Segment → List DataPoint) (rest : List UpstreamItem) :
    futurePoints g (UpstreamItem.error :: rest) = futurePoints g rest := by
  simp [futurePoints, allSegments, UpstreamItem.segments]

theorem futurePoints_cons_pending (g : Segment → List DataPoint) (rest : List UpstreamItem) :
    futurePoints g (UpstreamItem.pending :: rest) = futurePoints g rest := by
  simp [futurePoints, allSegments, UpstreamItem.segments]

theorem optFilter_pendingRows (s : GridStream) (h : s.predHolds) :
    optFilter s.maybe_predicate s.pendingRows = s.pendingRows := by
  cases hp : s.maybe_predicate with
  | none => rfl
  | some q =>
      exact List.filter_eq_self.mpr fun a ha => h q hp a (List.drop_subset _ _ ha)

theorem predHolds_of_rows_optFilter (s' : GridStream) (l : List DataPoint)
    (hrow : s'.current_batch.rows = optFilter s'.maybe_predicate l) : s'.predHolds := by
  intro q hq p hp
  rw [hrow, hq] at hp
  simp only [optFilter, List.mem_filter] at hp
  exact hp.2

theorem pendingRows_eq_nil (s : GridStream) (hwf : s.current_batch.wellFormed)
    (h : s.current_batch.num_rows ≤ s.current_batch_offset) : s.pendingRows = [] := by
  unfold GridStream.pendingRows
  exact List.drop_eq_nil_of_le (by rw [PointBatch.rows_length s.current_batch hwf]; exact h)

/-! ## Output of a completed run -/

/-- A run that reaches end of stream has emitted, in order, exactly the still
pending rows followed by the filtered reconstruction of every future upstream
segment. The emitted output therefore depends only on the concatenation of
the upstream segment batches, not on how they are batched. -/
theorem runPolls_completed_rows (g : Segment → List DataPoint) :
    ∀ (fuel : Nat) (s : GridStream) (input : List UpstreamItem),
      s.current_batch.wellFormed →
      s.current_batch_offset ≤ s.current_batch.num_rows →
      s.predHolds →
      (GridStream.runPolls g fuel s input).2 = true →
      (GridStream.runPolls g fuel s input).1.flatMap PointBatch.rows =
        s.pendingRows ++ optFilter s.maybe_predicate (futurePoints g input) := by
  intro fuel
  induction fuel with
  | zero =>
      intro s input _ _ _ hdone
      simp [GridStream.runPolls] at hdone
  | succ fuel ih =>
      intro s input hwf hoff hpred hdone
      rcases poll_next_characterization g s input with ⟨hlt, hcase⟩ | ⟨hge, heq⟩
      · rcases hcase with ⟨b, rest, hin, heq⟩ | ⟨rest, hin, heq⟩ | ⟨rest, hin, heq⟩ |
          ⟨hin, hoff2, heq⟩ | ⟨hin, hoff2, heq⟩
        · -- refill from a new upstream batch, then deliver
          subst hin
          obtain ⟨hwf1, hrows1, hoffz, hbs1, hpred1⟩ := gridAndAppend_spec g s b hwf
          obtain ⟨hdel_rows, hdel_cb, hdel_bs, hdel_pred, hdel_len, hdel_off⟩ :=
            deliver_spec (s.grid_and_append_to_leftovers_in_current_batch g b)
          have hrun : GridStream.runPolls g (fuel + 1) s (UpstreamItem.batch b :: rest) =
              ((s.grid_and_append_to_leftovers_in_current_batch g b).deliver.1 ::
                (GridStream.runPolls g fuel
                  (s.grid_and_append_to_leftovers_in_current_batch g b).deliver.2 rest).1,
               (GridStream.runPolls g fuel
                  (s.grid_and_append_to_leftovers_in_current_batch g b).deliver.2 rest).2) := by
            simp only [GridStream.runPolls, heq]
          have hwf2 : (s.grid_and_append_to_leftovers_in_current_batch g b).deliver.2.current_batch.wellFormed := by
            rw [hdel_cb]; exact hwf1
          have hoffle1 : (s.grid_and_append_to_leftovers_in_current_batch g b).current_batch_offset ≤
              (s.grid_and_append_to_leftovers_in_current_batch g b).current_batch.num_rows := by
            rw [hoffz]; exact Nat.zero_le _
          have hpredH1 : (s.grid_and_append_to_leftovers_in_current_batch g b).predHolds :=
            predHolds_of_rows_optFilter _ (s.pendingRows ++ b.flatMap g)
              (by rw [hrows1, hpred1])
          have hpredH2 : (s.grid_and_append_to_leftovers_in_current_batch g b).deliver.2.predHolds := by
            intro q hq p hp
            rw [hdel_cb] at hp
            rw [hdel_pred] at hq
            exact hpredH1 q hq p hp
          have hdone' : (GridStream.runPolls g fuel
              (s.grid_and_append_to_leftovers_in_current_batch g b).deliver.2 rest).2 = true := by
            rw [hrun] at hdone; exact hdone
          have hih := ih _ rest hwf2 (hdel_off hoffle1) hpredH2 hdone'
          have hpend1 : (s.grid_and_append_to_leftovers_in_current_batch g b).pendingRows =
              optFilter s.maybe_predicate (s.pendingRows ++ b.flatMap g) := by
            have h0 : (s.grid_and_append_to_leftovers_in_current_batch g b).pendingRows =
                (s.grid_and_append_to_leftovers_in_current_batch g b).current_batch.rows.drop
                  (s.grid_and_append_to_leftovers_in_current_batch g b).current_batch_offset := rfl
            rw [h0, hoffz, List.drop_zero, hrows1]
          rw [hrun]
          simp only [List.flatMap_cons]
          rw [hih, hdel_pred, hpred1, ← List.append_assoc, hdel_rows, hpend1,
            optFilter_append, optFilter_pendingRows s hpred, futurePoints_cons_batch,
            optFilter_append, List.append_assoc]
        · -- propagated upstream error
          subst hin
          have hrun : GridStream.runPolls g (fuel + 1) s (UpstreamItem.error :: rest) =
              GridStream.runPolls g fuel s rest := by
            simp only [GridStream.runPolls, heq]
          rw [hrun] at hdone ⊢
          rw [futurePoints_cons_error]
          exact ih s rest hwf hoff hpred hdone
        · -- propagated upstream pending
          subst hin
          have hrun : GridStream.runPolls g (fuel + 1) s (UpstreamItem.pending :: rest) =
              GridStream.runPolls g fuel s rest := by
            simp only [GridStream.runPolls, heq]
          rw [hrun] at hdone ⊢
          rw [futurePoints_cons_pending]
          exact ih s rest hwf hoff hpred hdone
        · -- upstream exhausted, leftovers remain: deliver them
          subst hin
          obtain ⟨hdel_rows, hdel_cb, hdel_bs, hdel_pred, hdel_len, hdel_off⟩ := deliver_spec s
          have hrun : GridStream.runPolls g (fuel + 1) s [] =
              (s.deliver.1 :: (GridStream.runPolls g fuel s.deliver.2 []).1,
               (GridStream.runPolls g fuel s.deliver.2 []).2) := by
            simp only [GridStream.runPolls, heq]
          have hpredH2 : s.deliver.2.predHolds := by
            intro q hq p hp
            rw [hdel_cb] at hp
            rw [hdel_pred] at hq
            exact hpred q hq p hp
          have hdone' : (GridStream.runPolls g fuel s.deliver.2 []).2 = true := by
            rw [hrun] at hdone; exact hdone
          have hih := ih s.deliver.2 [] (by rw [hdel_cb]; exact hwf) (hdel_off hoff)
            hpredH2 hdone'
          rw [hrun]
          simp only [List.flatMap_cons]
          rw [hih, futurePoints_nil, optFilter_nil, List.append_nil, hdel_rows,
            optFilter_nil, List.append_nil]
        · -- upstream exhausted and no leftovers: end of stream
          subst hin
          have hrun : GridStream.runPolls g (fuel + 1) s [] = ([], true) := by
            simp only [GridStream.runPolls, heq]
          rw [hrun]
          rw [pendingRows_eq_nil s hwf (by omega), futurePoints_nil, optFilter_nil]
          rfl
      · -- enough pending rows: deliver without touching the upstream
        obtain ⟨hdel_rows, hdel_cb, hdel_bs, hdel_pred, hdel_len, hdel_off⟩ := deliver_spec s
        have hrun : GridStream.runPolls g (fuel + 1) s input =
            (s.deliver.1 :: (GridStream.runPolls g fuel s.deliver.2 input).1,
             (GridStream.runPolls g fuel s.deliver.2 input).2) := by
          simp only [GridStream.runPolls, heq]
        have hpredH2 : s.deliver.2.predHolds := by
          intro q hq p hp
          rw [hdel_cb] at hp
          rw [hdel_pred] at hq
          exact hpred q hq p hp
        have hdone' : (GridStream.runPolls g fuel s.deliver.2 input).2 = true := by
          rw [hrun] at hdone; exact hdone
        have hih := ih s.deliver.2 input (by rw [hdel_cb]; exact hwf) (hdel_off hoff)
          hpredH2 hdone'
        rw [hrun]
        simp only [List.flatMap_cons]
        rw [hih, hdel_pred, ← List.append_assoc, hdel_rows]

/-! ## The sortedness invariant of a running stream -/

/-- The pending rows after a refill are the filtered candidate rows. -/
theorem gridAndAppend_pendingRows (g : Segment → List DataPoint) (s : GridStream)
    (b : List Segment) (hwf : s.current_batch.wellFormed) :
    (s.grid_and_append_to_leftovers_in_current_batch g b).pendingRows =
      optFilter s.maybe_predicate (s.pendingRows ++ b.flatMap g) := by
  obtain ⟨_, hrows1, hoffz, _, _⟩ := gridAndAppend_spec g s b hwf
  have h0 : (s.grid_and_append_to_leftovers_in_current_batch g b).pendingRows =
      (s.grid_and_append_to_leftovers_in_current_batch g b).current_batch.rows.drop
        (s.grid_and_append_to_leftovers_in_current_batch g b).current_batch_offset := rfl
  rw [h0, hoffz, List.drop_zero, hrows1]

theorem runInv_deliver (g : Segment → List DataPoint) (emitted : List DataPoint)
    (s : GridStream) (input : List UpstreamItem) (hinv : RunInv g emitted s input) :
    RunInv g (emitted ++ s.deliver.1.rows) s.deliver.2 input := by
  obtain ⟨hwf, hoff, hsort, hbound, hfut⟩ := hinv
  obtain ⟨hdrows, hdcb, hdbs, hdpred, hdlen, hdoff⟩ := deliver_spec s
  have hEq : (emitted ++ s.deliver.1.rows) ++ s.deliver.2.pendingRows =
      emitted ++ s.pendingRows := by
    rw [List.append_assoc, hdrows]
  refine ⟨by rw [hdcb]; exact hwf, hdoff hoff, ?_, ?_, hfut⟩
  · rw [hEq]; exact hsort
  · intro p hp q hq
    rw [hEq] at hp
    exact hbound p hp q hq

theorem runInv_refill_deliver (g : Segment → List DataPoint) (emitted : List DataPoint)
    (s : GridStream) (b : List Segment) (rest : List UpstreamItem)
    (hinv : RunInv g emitted s (UpstreamItem.batch b :: rest)) :
    RunInv g (emitted ++ (s.grid_and_append_to_leftovers_in_current_batch g b).deliver.1.rows)
      (s.grid_and_append_to_leftovers_in_current_batch g b).deliver.2 rest := by
  obtain ⟨hwf, hoff, hsort, hbound, hfut⟩ := hinv
  obtain ⟨hwf1, hrows1, hoffz, hbs1, hpred1⟩ := gridAndAppend_spec g s b hwf
  obtain ⟨hdrows, hdcb, hdbs, hdpred, hdlen, hdoff⟩ :=
    deliver_spec (s.grid_and_append_to_leftovers_in_current_batch g b)
  rw [futurePoints_cons_batch] at hfut hbound
  obtain ⟨hPts, hRest, hCross⟩ := List.pairwise_append.mp hfut
  obtain ⟨hEm, hPend, hEmPend⟩ := List.pairwise_append.mp hsort
  have hpend1 := gridAndAppend_pendingRows g s b hwf
  have hsubF : ((s.grid_and_append_to_leftovers_in_current_batch g b).pendingRows).Sublist
      (s.pendingRows ++ b.flatMap g) := by
    rw [hpend1]; exact optFilter_sublist _ _
  have hmemF : ∀ q ∈ (s.grid_and_append_to_leftovers_in_current_batch g b).pendingRows,
      q ∈ s.pendingRows ++ b.flatMap g := fun q hq => hsubF.subset hq
  have hcand_sorted : List.Pairwise pointLe (s.pendingRows ++ b.flatMap g) := by
    refine List.pairwise_append.mpr ⟨hPend, hPts, ?_⟩
    intro x hx y hy
    exact hbound x (List.mem_append.mpr (Or.inr hx)) y (List.mem_append.mpr (Or.inl hy))
  have hF_sorted :
      List.Pairwise pointLe (s.grid_and_append_to_leftovers_in_current_batch g b).pendingRows :=
    hcand_sorted.sublist hsubF
  have hEq : (emitted ++ (s.grid_and_append_to_leftovers_in_current_batch g b).deliver.1.rows) ++
      (s.grid_and_append_to_leftovers_in_current_batch g b).deliver.2.pendingRows =
      emitted ++ (s.grid_and_append_to_leftovers_in_current_batch g b).pendingRows := by
    rw [List.append_assoc, hdrows]
  refine ⟨by rw [hdcb]; exact hwf1,
    hdoff (by rw [hoffz]; exact Nat.zero_le _), ?_, ?_, hRest⟩
  · rw [hEq]
    refine List.pairwise_append.mpr ⟨hEm, hF_sorted, ?_⟩
    intro x hx y hy
    rcases List.mem_append.mp (hmemF y hy) with h | h
    · exact hEmPend x hx y h
    · exact hbound x (List.mem_append.mpr (Or.inl hx)) y (List.mem_append.mpr (Or.inl h))
  · intro p hp q hq
    rw [hEq] at hp
    rcases List.mem_append.mp hp with hpe | hpf
    · exact hbound p (List.mem_append.mpr (Or.inl hpe)) q
        (List.mem_append.mpr (Or.inr hq))
    · rcases List.mem_append.mp (hmemF p hpf) with h | h
      · exact hbound p (List.mem_append.mpr (Or.inr h)) q
          (List.mem_append.mpr (Or.inr hq))
      · exact hCross p h q hq

theorem runInv_tail_error (g : Segment → List DataPoint) (emitted : List DataPoint)
    (s : GridStream) (rest : List UpstreamItem)
    (hinv : RunInv g emitted s (UpstreamItem.error :: rest)) : RunInv g emitted s rest := by
  obtain ⟨h1, h2, h3, h4, h5⟩ := hinv
  rw [futurePoints_cons_error] at h4 h5
  exact ⟨h1, h2, h3, h4, h5⟩

theorem runInv_tail_pending (g : Segment → List DataPoint) (emitted : List DataPoint)
    (s : GridStream) (rest : List UpstreamItem)
    (hinv : RunInv g emitted s (UpstreamItem.pending :: rest)) : RunInv g emitted s rest := by
  obtain ⟨h1, h2, h3, h4, h5⟩ := hinv
  rw [futurePoints_cons_pending] at h4 h5
  exact ⟨h1, h2, h3, h4, h5⟩

theorem runInv_initial (g : Segment → List DataPoint) (maybe_predicate : Option (DataPoint → Bool))
    (limit : Option Nat) (batch_size : Nat) (input : List UpstreamItem)
    (hfut : List.Pairwise pointLe (futurePoints g input)) :
    RunInv g [] (GridStream.new maybe_predicate limit batch_size) input := by
  refine ⟨PointBatch.wellFormed_new_empty, Nat.le_refl 0, ?_, ?_, hfut⟩
  · show List.Pairwise pointLe ([] ++ PointBatch.new_empty.rows.drop 0)
    simp [PointBatch.rows_new_empty]
  · show ∀ p ∈ [] ++ PointBatch.new_empty.rows.drop 0, _
    simp [PointBatch.rows_new_empty]

/-- From segments sorted in segment order with per-series non-overlap, and a
kernel that keeps the segment's id and emits non-decreasing timestamps inside
the segment's time range, the reconstructed points are sorted in point order. -/
theorem futurePoints_sorted (g : Segment → List DataPoint) (input : List UpstreamItem)
    (hsort : List.Pairwise segmentLe (allSegments input))
    (hsep : List.Pairwise segmentsSeparated (allSegments input))
    (huid : ∀ seg ∈ allSegments input, ∀ p ∈ g seg, p.univariate_id = seg.univariate_id)
    (hts : ∀ seg ∈ allSegments input, ∀ p ∈ g seg,
      seg.start_time ≤ p.timestamp ∧ p.timestamp ≤ seg.end_time)
    (hmono : ∀ seg ∈ allSegments input,
      List.Pairwise (fun p q => p.timestamp ≤ q.timestamp) (g seg)) :
    List.Pairwise pointLe (futurePoints g input) := by
  unfold futurePoints
  rw [List.pairwise_flatMap]
  constructor
  · intro seg hseg
    refine (hmono seg hseg).imp_of_mem ?_
    intro p q hp hq hle
    exact Or.inr ⟨by rw [huid seg hseg p hp, huid seg hseg q hq], hle⟩
  · refine (hsort.and hsep).imp_of_mem ?_
    intro a c ha hc hrel x hx y hy
    obtain ⟨hle, hsep'⟩ := hrel
    rcases hle with h | ⟨heq, _⟩
    · exact Or.inl (by rw [huid a ha x hx, huid c hc y hy]; exact h)
    · refine Or.inr ⟨by rw [huid a ha x hx, huid c hc y hy]; exact heq, ?_⟩
      have h1 := (hts a ha x hx).2
      have h2 := (hts c hc y hy).1
      have h3 := hsep' heq
      omega

/-- Any number of polls preserves the invariant and accumulates sorted rows. -/
theorem runPolls_sorted_of_inv (g : Segment → List DataPoint) :
    ∀ (fuel : Nat) (emitted : List DataPoint) (s : GridStream) (input : List UpstreamItem),
      RunInv g emitted s input →
      List.Pairwise pointLe
        (emitted ++ (GridStream.runPolls g fuel s input).1.flatMap PointBatch.rows) := by
  intro fuel
  induction fuel with
  | zero =>
      intro emitted s input hinv
      have := (List.pairwise_append.mp hinv.2.2.1).1
      simpa [GridStream.runPolls] using this
  | succ fuel ih =>
      intro emitted s input hinv
      rcases poll_next_characterization g s input with ⟨hlt, hcase⟩ | ⟨hge, heq⟩
      · rcases hcase with ⟨b, rest, hin, heq⟩ | ⟨rest, hin, heq⟩ | ⟨rest, hin, heq⟩ |
          ⟨hin, hoff2, heq⟩ | ⟨hin, hoff2, heq⟩
        · subst hin
          have hrun : GridStream.runPolls g (fuel + 1) s (UpstreamItem.batch b :: rest) =
              ((s.grid_and_append_to_leftovers_in_current_batch g b).deliver.1 ::
                (GridStream.runPolls g fuel
                  (s.grid_and_append_to_leftovers_in_current_batch g b).deliver.2 rest).1,
               (GridStream.runPolls g fuel
                  (s.grid_and_append_to_leftovers_in_current_batch g b).deliver.2 rest).2) := by
            simp only [GridStream.runPolls, heq]
          rw [hrun]
          simp only [List.flatMap_cons]
          have := ih _ _ rest (runInv_refill_deliver g emitted s b rest hinv)
          simpa [List.append_assoc] using this
        · subst hin
          have hrun : GridStream.runPolls g (fuel + 1) s (UpstreamItem.error :: rest) =
              GridStream.runPolls g fuel s rest := by
            simp only [GridStream.runPolls, heq]
          rw [hrun]
          exact ih emitted s rest (runInv_tail_error g emitted s rest hinv)
        · subst hin
          have hrun : GridStream.runPolls g (fuel + 1) s (UpstreamItem.pending :: rest) =
              GridStream.runPolls g fuel s rest := by
            simp only [GridStream.runPolls, heq]
          rw [hrun]
          exact ih emitted s rest (runInv_tail_pending g emitted s rest hinv)
        · subst hin
          have hrun : GridStream.runPolls g (fuel + 1) s [] =
              (s.deliver.1 :: (GridStream.runPolls g fuel s.deliver.2 []).1,
               (GridStream.runPolls g fuel s.deliver.2 []).2) := by
            simp only [GridStream.runPolls, heq]
          rw [hrun]
          simp only [List.flatMap_cons]
          have := ih _ _ [] (runInv_deliver g emitted s [] hinv)
          simpa [List.append_assoc] using this
        · subst hin
          have hrun : GridStream.runPolls g (fuel + 1) s [] = ([], true) := by
            simp only [GridStream.runPolls, heq]
          rw [hrun]
          have := (List.pairwise_append.mp hinv.2.2.1).1
          simpa using this
      · have hrun : GridStream.runPolls g (fuel + 1) s input =
            (s.deliver.1 :: (GridStream.runPolls g fuel s.deliver.2 input).1,
             (GridStream.runPolls g fuel s.deliver.2 input).2) := by
          simp only [GridStream.runPolls, heq]
        rw [hrun]
        simp only [List.flatMap_cons]
        have := ih _ _ input (runInv_deliver g emitted s input hinv)
        simpa [List.append_assoc] using this

/-- The refill routine keeps `batch_size` and the predicate and zeroes the
offset, with no well-formedness assumption. -/
theorem gridAndAppend_fields (g : Segment → List DataPoint) (s : GridStream)
    (b : List Segment) :
    (s.grid_and_append_to_leftovers_in_current_batch g b).batch_size = s.batch_size ∧
    (s.grid_and_append_to_leftovers_in_current_batch g b).maybe_predicate = s.maybe_predicate ∧
    (s.grid_and_append_to_leftovers_in_current_batch g b).current_batch_offset = 0 := by
  simp only [GridStream.grid_and_append_to_leftovers_in_current_batch, gridSegmentsLoop_eq]
  cases s.maybe_predicate <;> exact ⟨by trivial, by trivial, by trivial⟩

/-- Every batch emitted over any number of polls has at most `batch_size`
rows, because each delivery slices at most `min(batch_size, remaining)` rows
and neither refill nor delivery changes `batch_size`. -/
theorem runPolls_batch_num_rows_le (g : Segment → List DataPoint) :
    ∀ (fuel : Nat) (s : GridStream) (input : List UpstreamItem) (b : PointBatch),
      b ∈ (GridStream.runPolls g fuel s input).1 → b.num_rows ≤ s.batch_size := by
  intro fuel
  induction fuel with
  | zero =>
      intro s input b hb
      simp [GridStream.runPolls] at hb
  | succ fuel ih =>
      intro s input b hb
      rcases poll_next_characterization g s input with ⟨hlt, hcase⟩ | ⟨hge, heq⟩
      · rcases hcase with ⟨bb, rest, hin, heq⟩ | ⟨rest, hin, heq⟩ | ⟨rest, hin, heq⟩ |
          ⟨hin, hoff2, heq⟩ | ⟨hin, hoff2, heq⟩
        · subst hin
          obtain ⟨hbs1, _, _⟩ := gridAndAppend_fields g s bb
          obtain ⟨_, _, hdbs, _, hdlen, _⟩ :=
            deliver_spec (s.grid_and_append_to_leftovers_in_current_batch g bb)
          have hrun : GridStream.runPolls g (fuel + 1) s (UpstreamItem.batch bb :: rest) =
              ((s.grid_and_append_to_leftovers_in_current_batch g bb).deliver.1 ::
                (GridStream.runPolls g fuel
                  (s.grid_and_append_to_leftovers_in_current_batch g bb).deliver.2 rest).1,
               (GridStream.runPolls g fuel
                  (s.grid_and_append_to_leftovers_in_current_batch g bb).deliver.2 rest).2) := by
            simp only [GridStream.runPolls, heq]
          rw [hrun] at hb
          rcases List.mem_cons.mp hb with hb1 | hb2
          · rw [hb1]
            exact hbs1 ▸ hdlen
          · have hrec := ih _ rest b hb2
            rw [hdbs, hbs1] at hrec
            exact hrec
        · subst hin
          have hrun : GridStream.runPolls g (fuel + 1) s (UpstreamItem.error :: rest) =
              GridStream.runPolls g fuel s rest := by
            simp only [GridStream.runPolls, heq]
          rw [hrun] at hb
          exact ih s rest b hb
        · subst hin
          have hrun : GridStream.runPolls g (fuel + 1) s (UpstreamItem.pending :: rest) =
              GridStream.runPolls g fuel s rest := by
            simp only [GridStream.runPolls, heq]
          rw [hrun] at hb
          exact ih s rest b hb
        · subst hin
          obtain ⟨_, _, hdbs, _, hdlen, _⟩ := deliver_spec s
          have hrun : GridStream.runPolls g (fuel + 1) s [] =
              (s.deliver.1 :: (GridStream.runPolls g fuel s.deliver.2 []).1,
               (GridStream.runPolls g fuel s.deliver.2 []).2) := by
            simp only [GridStream.runPolls, heq]
          rw [hrun] at hb
          rcases List.mem_cons.mp hb with hb1 | hb2
          · rw [hb1]; exact hdlen
          · have hrec := ih _ [] b hb2
            rw [hdbs] at hrec
            exact hrec
        · subst hin
          have hrun : GridStream.runPolls g (fuel + 1) s [] = ([], true) := by
            simp only [GridStream.runPolls, heq]
          rw [hrun] at hb
          simp at hb
      · obtain ⟨_, _, hdbs, _, hdlen, _⟩ := deliver_spec s
        have hrun : GridStream.runPolls g (fuel + 1) s input =
            (s.deliver.1 :: (GridStream.runPolls g fuel s.deliver.2 input).1,
             (GridStream.runPolls g fuel s.deliver.2 input).2) := by
          simp only [GridStream.runPolls, heq]
        rw [hrun] at hb
        rcases List.mem_cons.mp hb with hb1 | hb2
        · rw [hb1]; exact hdlen
        · have hrec := ih _ input b hb2
          rw [hdbs] at hrec
          exact hrec

/-! ## Remaining helpers for the claims -/

theorem allSegments_map_batch (parts : List (List Segment)) :
    allSegments (parts.map UpstreamItem.batch) = parts.flatten := by
  induction parts with
  | nil => rfl
  | cons p rest ih =>
      simp only [List.map_cons, allSegments, List.flatMap_cons] at *
      rw [ih]
      rfl

/-- A successful flush performed exactly the write of the concatenated batch
with the two-key sort metadata, and left the buffer untouched. -/
theorem save_ok_characterization (debugAssertions : Bool) (io : IoEnv)
    (buf : CompressedDataBuffer) (w : ParquetWrite) (buf' : CompressedDataBuffer)
    (h : buf.save_to_apache_parquet debugAssertions io = SaveResult.ok w buf') :
    w = { batch := buf.compressed_segments.flatten,
          sorting_columns := some [SortingColumn.new 0 false false,
            SortingColumn.new 2 false false] } ∧ buf' = buf := by
  unfold CompressedDataBuffer.save_to_apache_parquet at h
  split at h
  · exact SaveResult.noConfusion h
  · split at h
    · exact SaveResult.noConfusion h
    · split at h
      · exact SaveResult.noConfusion h
      · split at h
        · exact SaveResult.noConfusion h
        · injection h with hw hb
          exact ⟨hw.symm, hb.symm⟩

/-! ## The claims -/

/-- C1: for every partition stream, if the upstream's segments (concatenated
over its batches) are sorted by (univariate_id, start_time) with per-series
segments non-overlapping, and the kernel appends for each segment at least one
point whose timestamps lie in `[start_time, end_time]` in non-decreasing
order, then the concatenation of all batches emitted by `poll_next` over any
number of polls is non-decreasing in (univariate_id, timestamp). -/
theorem gridStream_output_sorted (g : Segment → List DataPoint)
    (maybe_predicate : Option (DataPoint → Bool)) (limit : Option Nat) (batch_size : Nat)
    (input : List UpstreamItem) (fuel : Nat)
    (hsort : List.Pairwise segmentLe (allSegments input))
    (hsep : List.Pairwise segmentsSeparated (allSegments input))
    (_hne : ∀ seg ∈ allSegments input, g seg ≠ [])
    (huid : ∀ seg ∈ allSegments input, ∀ p ∈ g seg, p.univariate_id = seg.univariate_id)
    (hts : ∀ seg ∈ allSegments input, ∀ p ∈ g seg,
      seg.start_time ≤ p.timestamp ∧ p.timestamp ≤ seg.end_time)
    (hmono : ∀ seg ∈ allSegments input,
      List.Pairwise (fun p q => p.timestamp ≤ q.timestamp) (g seg)) :
    List.Pairwise pointLe
      ((GridStream.runPolls g fuel (GridStream.new maybe_predicate limit batch_size)
        input).1.flatMap PointBatch.rows) := by
  have hfut := futurePoints_sorted g input hsort hsep huid hts hmono
  have h := runPolls_sorted_of_inv g fuel []
    (GridStream.new maybe_predicate limit batch_size) input
    (runInv_initial g maybe_predicate limit batch_size input hfut)
  simpa using h

/-- C1 witness: a concrete sorted upstream and kernel. -/
theorem gridStream_output_sorted_witness :
    List.Pairwise pointLe
      ((GridStream.runPolls sampleKernel 8 (GridStream.new none none 2)
        sampleInput).1.flatMap PointBatch.rows) :=
  gridStream_output_sorted sampleKernel none none 2 sampleInput 8
    (by decide) (by decide) (by decide) (by decide) (by decide) (by decide)

/-- C2: every batch emitted over any sequence of polls of a stream created
with engine batch size `batch_size` and optional `limit` has at most
`min(limit, batch_size)` rows when the limit is present, and at most
`batch_size` rows when it is absent. -/
theorem gridStream_batch_size_bound (g : Segment → List DataPoint)
    (maybe_predicate : Option (DataPoint → Bool)) (limit : Option Nat) (batch_size : Nat)
    (input : List UpstreamItem) (fuel : Nat) (b : PointBatch)
    (hb : b ∈ (GridStream.runPolls g fuel
      (GridStream.new maybe_predicate limit batch_size) input).1) :
    b.num_rows ≤ (match limit with
      | some l => Nat.min l batch_size
      | none => batch_size) := by
  have h := runPolls_batch_num_rows_le g fuel
    (GridStream.new maybe_predicate limit batch_size) input b hb
  cases limit with
  | none => exact h
  | some l => exact h

/-- C2 witness: with limit 3 and engine batch size 2 the first emitted batch
of a concrete run has at most `min 3 2` rows. -/
theorem gridStream_batch_size_bound_witness :
    (⟨[1, 1], [10, 11], [0, 0]⟩ : PointBatch).num_rows ≤ Nat.min 3 2 :=
  gridStream_batch_size_bound sampleKernel none (some 3) 2 sampleInput 8 _ (by decide)

/-- C3: the refill routine replaces the current batch with the filtered
version (identity when no predicate is present) of the candidate batch whose
rows are exactly the leftover rows `[current_batch_offset, num_rows)` of the
old current batch, in order, followed by the kernel's reconstructed points for
each segment row of the incoming batch in row order, and resets the offset
to zero. -/
theorem gridAndAppend_replaces_current_batch (g : Segment → List DataPoint)
    (s : GridStream) (batch : List Segment) (hwf : s.current_batch.wellFormed) :
    (s.grid_and_append_to_leftovers_in_current_batch g batch).current_batch.rows =
      optFilter s.maybe_predicate
        (s.current_batch.rows.drop s.current_batch_offset ++ batch.flatMap g) ∧
    (s.grid_and_append_to_leftovers_in_current_batch g batch).current_batch_offset = 0 := by
  obtain ⟨_, hrows, hoffz, _, _⟩ := gridAndAppend_spec g s batch hwf
  exact ⟨hrows, hoffz⟩

/-- C3 witness: a concrete refill with a predicate and a leftover row. -/
theorem gridAndAppend_replaces_current_batch_witness :
    (sampleState.grid_and_append_to_leftovers_in_current_batch sampleKernel
        [sampleSegment 1 [12]]).current_batch.rows =
      optFilter sampleState.maybe_predicate
        (sampleState.current_batch.rows.drop sampleState.current_batch_offset ++
          [sampleSegment 1 [12]].flatMap sampleKernel) ∧
    (sampleState.grid_and_append_to_leftovers_in_current_batch sampleKernel
        [sampleSegment 1 [12]]).current_batch_offset = 0 :=
  gridAndAppend_replaces_current_batch sampleKernel sampleState
    [sampleSegment 1 [12]] (by decide)

/-- C7: `with_new_children` fails with a plan error exactly when the child
count is not one, and with a single child it succeeds, keeping the predicate
and the limit and replacing the input by the given child. -/
theorem gridExec_with_new_children_spec {P : Type} (g : GridExec P) (children : List P) :
    ((∃ e, g.with_new_children children = Except.error e) ↔ children.length ≠ 1) ∧
    (∀ c, children = [c] →
      g.with_new_children children =
        Except.ok (GridExec.new g.maybe_predicate g.limit c)) := by
  constructor
  · constructor
    · rintro ⟨e, he⟩ hlen
      unfold GridExec.with_new_children at he
      rw [dif_pos hlen] at he
      exact Except.noConfusion he
    · intro hlen
      refine ⟨"Exactly one child must be provided", ?_⟩
      unfold GridExec.with_new_children
      rw [dif_neg hlen]
  · rintro c rfl
    unfold GridExec.with_new_children
    rw [dif_pos (by simp)]
    rfl

/-- C7 witness: zero children fail, one child succeeds and is installed. -/
theorem gridExec_with_new_children_witness :
    (GridExec.new none none (0 : Nat)).with_new_children [(5 : Nat)] =
        Except.ok (GridExec.new none none 5) ∧
      ∃ e, (GridExec.new none none (0 : Nat)).with_new_children ([] : List Nat) =
        Except.error e :=
  ⟨(gridExec_with_new_children_spec (GridExec.new none none 0) [5]).2 5 rfl,
   (gridExec_with_new_children_spec (GridExec.new none none 0) []).1.mpr (by decide)⟩

/-- C8: for a fixed kernel, predicate, limit and batch size, any two ways of
splitting the same segment sequence into upstream batches give, once each run
reaches end of stream, the same concatenated sequence of emitted rows. -/
theorem gridStream_split_invariance (g : Segment → List DataPoint)
    (maybe_predicate : Option (DataPoint → Bool)) (limit : Option Nat) (batch_size : Nat)
    (parts1 parts2 : List (List Segment)) (fuel1 fuel2 : Nat)
    (hsame : parts1.flatten = parts2.flatten)
    (h1 : (GridStream.runPolls g fuel1 (GridStream.new maybe_predicate limit batch_size)
      (parts1.map UpstreamItem.batch)).2 = true)
    (h2 : (GridStream.runPolls g fuel2 (GridStream.new maybe_predicate limit batch_size)
      (parts2.map UpstreamItem.batch)).2 = true) :
    (GridStream.runPolls g fuel1 (GridStream.new maybe_predicate limit batch_size)
      (parts1.map UpstreamItem.batch)).1.flatMap PointBatch.rows =
    (GridStream.runPolls g fuel2 (GridStream.new maybe_predicate limit batch_size)
      (parts2.map UpstreamItem.batch)).1.flatMap PointBatch.rows := by
  have hpredH : (GridStream.new maybe_predicate limit batch_size).predHolds := by
    intro q hq p hp
    exact absurd hp (List.not_mem_nil p)
  have e1 := runPolls_completed_rows g fuel1
    (GridStream.new maybe_predicate limit batch_size) (parts1.map UpstreamItem.batch)
    PointBatch.wellFormed_new_empty (Nat.le_refl 0) hpredH h1
  have e2 := runPolls_completed_rows g fuel2
    (GridStream.new maybe_predicate limit batch_size) (parts2.map UpstreamItem.batch)
    PointBatch.wellFormed_new_empty (Nat.le_refl 0) hpredH h2
  rw [e1, e2]
  unfold futurePoints
  rw [allSegments_map_batch, allSegments_map_batch, hsame]

/-- C8 witness: one batch of two segments versus two singleton batches. -/
theorem gridStream_split_invariance_witness :
    (GridStream.runPolls sampleKernel 10 (GridStream.new none none 1)
      ([[sampleSegment 1 [10, 11], sampleSegment 2 [12]]].map UpstreamItem.batch)).1.flatMap
        PointBatch.rows =
    (GridStream.runPolls sampleKernel 10 (GridStream.new none none 1)
      ([[sampleSegment 1 [10, 11]], [sampleSegment 2 [12]]].map UpstreamItem.batch)).1.flatMap
        PointBatch.rows :=
  gridStream_split_invariance sampleKernel none none 1
    [[sampleSegment 1 [10, 11], sampleSegment 2 [12]]]
    [[sampleSegment 1 [10, 11]], [sampleSegment 2 [12]]] 10 10
    (by decide) (by decide) (by decide)

/-- C9: with limit `Some(0)` the effective batch size is `0`, so every call of
`poll_next` returns `Ready(Some(Ok(batch)))` with a zero-row batch without
consuming any upstream item, the state is unchanged, and over any number of
polls the stream only emits empty batches and never reaches end of stream. -/
theorem gridStream_limit_zero (g : Segment → List DataPoint)
    (maybe_predicate : Option (DataPoint → Bool)) (batch_size : Nat)
    (input : List UpstreamItem) :
    GridStream.poll_next g (GridStream.new maybe_predicate (some 0) batch_size) input =
      (PollRes.out PointBatch.new_empty,
       GridStream.new maybe_predicate (some 0) batch_size, input) ∧
    ∀ n, GridStream.runPolls g n (GridStream.new maybe_predicate (some 0) batch_size) input =
      (List.replicate n PointBatch.new_empty, false) := by
  have hcond : ¬ ((GridStream.new maybe_predicate (some 0) batch_size).current_batch.num_rows -
      (GridStream.new maybe_predicate (some 0) batch_size).current_batch_offset <
      (GridStream.new maybe_predicate (some 0) batch_size).batch_size) := by
    show ¬ (0 - 0 < Nat.min 0 batch_size)
    have hmin0 : Nat.min 0 batch_size = 0 := by simp [Nat.min_def]
    rw [hmin0]
    exact Nat.not_lt_zero _
  have hdel : (GridStream.new maybe_predicate (some 0) batch_size).deliver =
      (PointBatch.new_empty, GridStream.new maybe_predicate (some 0) batch_size) := by
    simp [GridStream.deliver, GridStream.new, PointBatch.slice, PointBatch.num_rows,
      PointBatch.new_empty]
  have hpoll : GridStream.poll_next g
      (GridStream.new maybe_predicate (some 0) batch_size) input =
      (PollRes.out PointBatch.new_empty,
       GridStream.new maybe_predicate (some 0) batch_size, input) := by
    rcases poll_next_characterization g
      (GridStream.new maybe_predicate (some 0) batch_size) input with ⟨hlt, _⟩ | ⟨_, heq⟩
    · exact absurd hlt hcond
    · rw [heq, hdel]
  refine ⟨hpoll, ?_⟩
  intro n
  induction n with
  | zero => rfl
  | succ n ihn =>
      have : GridStream.runPolls g (n + 1)
          (GridStream.new maybe_predicate (some 0) batch_size) input =
          (PointBatch.new_empty :: (GridStream.runPolls g n
            (GridStream.new maybe_predicate (some 0) batch_size) input).1,
           (GridStream.runPolls g n
            (GridStream.new maybe_predicate (some 0) batch_size) input).2) := by
        simp only [GridStream.runPolls, hpoll]
      rw [this, ihn]
      rfl

/-- C10: when a poll pulls an upstream segment batch and the refilled,
filtered current batch has zero rows, `poll_next` still returns
`Ready(Some(Ok(batch)))` with an empty batch: it does not pull a second
upstream item in the same poll and does not end the stream. -/
theorem gridStream_emits_empty_batch (g : Segment → List DataPoint) (s : GridStream)
    (b : List Segment) (rest : List UpstreamItem)
    (hlt : s.current_batch.num_rows - s.current_batch_offset < s.batch_size)
    (hempty : (s.grid_and_append_to_leftovers_in_current_batch g b).current_batch.num_rows = 0) :
    ∃ s', GridStream.poll_next g s (UpstreamItem.batch b :: rest) =
      (PollRes.out PointBatch.new_empty, s', rest) := by
  obtain ⟨_, _, hoffz⟩ := gridAndAppend_fields g s b
  have h1 : (s.grid_and_append_to_leftovers_in_current_batch g b).deliver.1 =
      PointBatch.new_empty := by
    simp [GridStream.deliver, PointBatch.slice, hempty, hoffz, PointBatch.new_empty]
  rcases poll_next_characterization g s (UpstreamItem.batch b :: rest) with
    ⟨_, hcase⟩ | ⟨hge, _⟩
  · rcases hcase with ⟨b', rest', hin, heq⟩ | ⟨rest', hin, _⟩ | ⟨rest', hin, _⟩ |
      ⟨hin, _, _⟩ | ⟨hin, _, _⟩
    · obtain ⟨hb', hrest'⟩ : b = b' ∧ rest = rest' := by
        injection hin with hhead htail
        injection hhead with hb
        exact ⟨hb, htail⟩
      subst hb'
      subst hrest'
      exact ⟨(s.grid_and_append_to_leftovers_in_current_batch g b).deliver.2, by rw [heq, h1]⟩
    · simp at hin
    · simp at hin
    · exact absurd hin (by simp)
    · exact absurd hin (by simp)
  · exact absurd hlt hge

/-- C10 witness: a predicate that drops every reconstructed point. -/
theorem gridStream_emits_empty_batch_witness :
    ∃ s', GridStream.poll_next sampleKernel
        (GridStream.new (some fun _ => false) none 4)
        (UpstreamItem.batch [sampleSegment 1 [10]] :: []) =
      (PollRes.out PointBatch.new_empty, s', []) :=
  gridStream_emits_empty_batch sampleKernel (GridStream.new (some fun _ => false) none 4)
    [sampleSegment 1 [10]] [] (by decide) (by decide)

/-- C4 counterexample: on a successful flush of a concrete non-empty buffer,
the written sort metadata is NOT `nulls_first`: the code passes
`SortingColumn::new(idx, false, false)`, whose third argument is
`nulls_first = false`. -/
theorem save_sorting_columns_counterexample :
    ¬ ∀ (w : ParquetWrite) (buf' : CompressedDataBuffer),
        sampleBuffer.save_to_apache_parquet false goodIo = SaveResult.ok w buf' →
        w.sorting_columns =
          some [SortingColumn.new 0 false true, SortingColumn.new 2 false true] := by
  intro h
  have hw := h { batch := [sampleSegment 1 [10, 11]],
                 sorting_columns := some [SortingColumn.new 0 false false,
                   SortingColumn.new 2 false false] } sampleBuffer rfl
  exact absurd hw (by decide)

/-- C4 (amended): every successful flush of a non-empty buffer writes the file
with sort metadata declaring column 0 (univariate_id) and column 2
(start_time) as sort keys, each ascending (`descending = false`) with
nulls-last (`nulls_first = false`) ordering. -/
theorem save_sorting_columns_spec (debugAssertions : Bool) (io : IoEnv)
    (buf : CompressedDataBuffer) (w : ParquetWrite) (buf' : CompressedDataBuffer)
    (_hne : buf.compressed_segments ≠ [])
    (h : buf.save_to_apache_parquet debugAssertions io = SaveResult.ok w buf') :
    w.sorting_columns =
      some [SortingColumn.new 0 false false, SortingColumn.new 2 false false] := by
  obtain ⟨hw, _⟩ := save_ok_characterization debugAssertions io buf w buf' h
  rw [hw]

/-- C4 witness: the successful sample flush carries the two-key metadata. -/
theorem save_sorting_columns_spec_witness :
    ({ batch := [sampleSegment 1 [10, 11]],
       sorting_columns := some [SortingColumn.new 0 false false,
         SortingColumn.new 2 false false] } : ParquetWrite).sorting_columns =
      some [SortingColumn.new 0 false false, SortingColumn.new 2 false false] :=
  save_sorting_columns_spec false goodIo sampleBuffer _ sampleBuffer (by decide) rfl

/-- C5 counterexample: after a successful flush of a concrete buffer holding
one batch, the buffer still holds that batch — `save_to_apache_parquet` never
clears `compressed_segments`. -/
theorem save_consumes_buffer_counterexample :
    ¬ ∀ (w : ParquetWrite) (buf' : CompressedDataBuffer),
        sampleBuffer.save_to_apache_parquet false goodIo = SaveResult.ok w buf' →
        buf'.compressed_segments = [] := by
  intro h
  have hb := h { batch := [sampleSegment 1 [10, 11]],
                 sorting_columns := some [SortingColumn.new 0 false false,
                   SortingColumn.new 2 false false] } sampleBuffer rfl
  exact absurd hb (by decide)

/-- C5 (amended): a successful flush does not modify the buffer at all: after
`save_to_apache_parquet` returns `Ok`, the buffer still holds exactly the
accumulated batches (the caller is expected to discard the buffer). -/
theorem save_preserves_buffer (debugAssertions : Bool) (io : IoEnv)
    (buf : CompressedDataBuffer) (w : ParquetWrite) (buf' : CompressedDataBuffer)
    (h : buf.save_to_apache_parquet debugAssertions io = SaveResult.ok w buf') :
    buf' = buf :=
  (save_ok_characterization debugAssertions io buf w buf' h).2

/-- C5 witness: the sample flush succeeds and returns the unchanged buffer. -/
theorem save_preserves_buffer_witness :
    sampleBuffer.save_to_apache_parquet false goodIo =
        SaveResult.ok { batch := [sampleSegment 1 [10, 11]],
                        sorting_columns := some [SortingColumn.new 0 false false,
                          SortingColumn.new 2 false false] } sampleBuffer ∧
      sampleBuffer = sampleBuffer :=
  ⟨rfl, save_preserves_buffer false goodIo sampleBuffer _ _ rfl⟩

/-- C6 counterexample: flushing an empty buffer in a release build
(`debug_assert!` inactive) with all I/O steps succeeding does NOT return an
I/O error — the skipped assertion lets the flush proceed on the empty
concatenation and return `Ok`. -/
theorem empty_flush_release_counterexample :
    ¬ ∃ msg, CompressedDataBuffer.new.save_to_apache_parquet false goodIo =
      SaveResult.ioError msg := by
  rintro ⟨msg, h⟩
  rw [show CompressedDataBuffer.new.save_to_apache_parquet false goodIo =
    SaveResult.ok { batch := [],
                    sorting_columns := some [SortingColumn.new 0 false false,
                      SortingColumn.new 2 false false] }
      CompressedDataBuffer.new from rfl] at h
  exact SaveResult.noConfusion h

/-- C6 (amended): flushing a buffer with zero accumulated batches panics in a
debug build via `debug_assert!`; in a release build the assertion is skipped
and the flush proceeds on the empty concatenation, returning `Ok` with an
empty write whenever directory creation, the file write, and the metadata read
all succeed — an I/O error is returned only when one of those external steps
fails. -/
theorem empty_flush_behavior (io : IoEnv) (buf : CompressedDataBuffer)
    (hempty : buf.compressed_segments = []) :
    buf.save_to_apache_parquet true io =
      SaveResult.panicked "Cannot save CompressedDataBuffer with no data." ∧
    (io.create_dir_all_ok = true → io.write_ok = true → io.metadata_ok = true →
      buf.save_to_apache_parquet false io =
        SaveResult.ok { batch := [],
                        sorting_columns := some [SortingColumn.new 0 false false,
                          SortingColumn.new 2 false false] } buf) := by
  constructor
  · have hE : buf.compressed_segments.isEmpty = true := by rw [hempty]; rfl
    simp [CompressedDataBuffer.save_to_apache_parquet, hE]
  · intro h1 h2 h3
    simp [CompressedDataBuffer.save_to_apache_parquet, h1, h2, h3, hempty]

/-- C6 witness: the empty buffer panics under debug assertions and flushes an
empty file in release mode with a successful environment. -/
theorem empty_flush_behavior_witness :
    CompressedDataBuffer.new.save_to_apache_parquet true goodIo =
        SaveResult.panicked "Cannot save CompressedDataBuffer with no data." ∧
      CompressedDataBuffer.new.save_to_apache_parquet false goodIo =
        SaveResult.ok { batch := [],
                        sorting_columns := some [SortingColumn.new 0 false false,
                          SortingColumn.new 2 false false] }
          CompressedDataBuffer.new :=
  ⟨(empty_flush_behavior goodIo CompressedDataBuffer.new rfl).1,
   (empty_flush_behavior goodIo CompressedDataBuffer.new rfl).2 rfl rfl rfl⟩

end ModelarDB
